import Mathlib

/-!
Shallow embedding of the jack output driver of shairport-sync
(src/audio_jack.c) and proofs about its ring buffer, sample
conversion, delay estimation, client-open logic and initialisation.

Modelling conventions:
* A frame is one left and one right 16-bit sample (4 bytes).  All cursor
  movement in the C code happens in whole frames (multiples of 4 bytes),
  so the ring buffer is modelled at frame granularity: `buf : ℕ → Frame`
  with the live indices `0 ≤ i < capFrames`, `toq`/`eoq` as frame offsets
  from `audio_lmb`, and `audio_umb - p` rendered as `capFrames - p`.
* `size_t` quantities (occupancy, cursors) are `ℕ`; `int64_t` quantities
  (fixed-point timestamps) are `ℤ` — their magnitudes in operation stay
  far below 2^63, so 64-bit wraparound is not modelled.  `jack_nframes_t`
  (`uint32_t`) latency values are `ℕ` and the 32-bit wraparound of their
  sum in `jack_delay` is modelled explicitly with `% 2 ^ 32`.
* `jack_default_audio_sample_t` (float) arithmetic is modelled exactly
  over `ℚ`; the endpoints produced by the conversion (±1, 0) are exactly
  representable floats, so the proved bounds survive rounding.
* The pthread mutexes serialise `play`, the process callback,
  `jack_delay` and `jack_flush`; accordingly each is modelled as one
  atomic transition on the state.
-/

namespace AudioJack

/-- Line 41: `#define buffer_size 44100 * 4 * 2 * 2` (bytes). -/
def buffer_size : ℕ := 44100 * 4 * 2 * 2

/-- Ring capacity in frames: a frame is 4 bytes (left + right 16-bit). -/
def capFrames : ℕ := buffer_size / 4

/-- One interleaved stereo frame: left and right signed 16-bit samples,
modelled as integers. -/
structure Frame where
  l : Int
  r : Int
deriving DecidableEq, Repr

/-- A `jack_latency_range_t`: `min`/`max` are `jack_nframes_t` values. -/
structure LatencyRange where
  min : ℕ
  max : ℕ
deriving DecidableEq, Repr

/-- The driver's mutable globals relevant to the buffer and the delay
estimate: `audio_lmb`-based ring content, read cursor `audio_toq`, write
cursor `audio_eoq` (frame offsets), `audio_occupancy` (frames), the two
latest latency ranges, and `time_of_latest_transfer` (fixed-point). -/
structure JackState where
  buf : ℕ → Frame
  toq : ℕ
  eoq : ℕ
  occupancy : ℕ
  latestLeft : LatencyRange
  latestRight : LatencyRange
  timeOfLatestTransfer : Int

/-- State after `jack_init` set up the buffer (lines 362–367): both
cursors at `audio_lmb`, zero occupancy, zeroed globals. -/
def initState : JackState :=
  { buf := fun _ => ⟨0, 0⟩
    toq := 0
    eoq := 0
    occupancy := 0
    latestLeft := ⟨0, 0⟩
    latestRight := ⟨0, 0⟩
    timeOfLatestTransfer := 0 }

/-- Write the frames of `l` at consecutive indices starting at `pos`
(a `memcpy` into the ring at frame granularity). -/
def writeSeq (buf : ℕ → Frame) (pos : ℕ) : List Frame → (ℕ → Frame)
  | [] => buf
  | f :: rest => writeSeq (Function.update buf pos f) (pos + 1) rest

/-- Read `n` frames at consecutive indices starting at `pos`. -/
def readSeq (buf : ℕ → Frame) (pos : ℕ) : ℕ → List Frame
  | 0 => []
  | n + 1 => buf pos :: readSeq buf (pos + 1) n

/-- Lines 88–109, `play(void *buf, int samples)`: copy the frames into
the queue at `audio_eoq`, splitting when the byte span crosses
`audio_umb`; add `samples` to `audio_occupancy`; always `return 0`.
`space_to_end_of_buffer = audio_umb - audio_eoq` is `capFrames - eoq`
frames, and `space >= bytes_to_transfer` is `frames.length ≤ space`. -/
def play (st : JackState) (frames : List Frame) : JackState × Int :=
  if frames.length ≤ capFrames - st.eoq then
    ({ st with
        buf := writeSeq st.buf st.eoq frames
        eoq := st.eoq + frames.length
        occupancy := st.occupancy + frames.length }, 0)
  else
    ({ st with
        buf := writeSeq (writeSeq st.buf st.eoq (frames.take (capFrames - st.eoq))) 0
          (frames.drop (capFrames - st.eoq))
        eoq := frames.length - (capFrames - st.eoq)
        occupancy := st.occupancy + frames.length }, 0)

/-- Lines 120–125: conversion of one signed 16-bit sample to a float.
`SHRT_MAX = 32767`, `SHRT_MIN = -32768`; a non-negative sample is divided
by `SHRT_MAX`, a negative one is negated and divided by `SHRT_MIN`. -/
def convert (sample : Int) : ℚ :=
  if 0 ≤ sample then (sample : ℚ) / 32767
  else (-(sample : ℚ)) / (-32768)

/-- The `enum ift_type` of line 35: which channel a conversion extracts. -/
inductive IftType where
  | frame_left_sample
  | frame_right_sample
deriving DecidableEq, Repr

/-- Lines 111–131, `deinterleave_and_convert_stream`: starting from the
interleaved frames (offset 0 for the left channel, 1 for the right),
take every second 16-bit sample and convert it.  At frame granularity
this maps `convert` over the chosen side of each frame. -/
def deinterleave_and_convert_stream (frames : List Frame) (side : IftType) : List ℚ :=
  frames.map (fun f => convert (if side = IftType.frame_right_sample then f.r else f.l))

/-- Data supplied by the jack library to one invocation of the process
callback: the latency ranges the two `jack_port_get_latency_range` calls
report (lines 176–177) and the value `get_absolute_time_in_fp()` returns
(line 178). -/
structure CbEnv where
  leftRange : LatencyRange
  rightRange : LatencyRange
  now : Int
deriving Repr

/-- Result of one process-callback invocation: the new global state, the
frames read out of the ring (the exact bytes the two
`deinterleave_and_convert_stream` calls consumed, in order), the two
output port buffers, and the return value. -/
structure CbResult where
  st : JackState
  raw : List Frame
  left : List ℚ
  right : List ℚ
  ret : Int

/-- Lines 133–190, `jack_stream_write_cb(nframes)`:
`frames_we_can_transfer` is `nframes` lowered to `audio_occupancy` on
underflow; the frames are read contiguously from `audio_toq` when
`frames_we_can_transfer * 2 * 2 <= audio_umb - audio_toq`, otherwise in
two portions (`first_portion_to_write = (audio_umb - audio_toq)/(2*2)`
frames from `audio_toq`, the rest from `audio_lmb`); each portion is
deinterleaved and converted into both port buffers; `audio_toq` advances
accordingly, `audio_occupancy` drops by the transfer, both latency
ranges and `time_of_latest_transfer` are refreshed, and the remaining
slots `frames_we_can_transfer ≤ i < nframes` of both port buffers are
set to `0.0`; always `return 0`. -/
def jack_stream_write_cb (st : JackState) (env : CbEnv) (nframes : ℕ) : CbResult :=
  let ftt := if st.occupancy < nframes then st.occupancy else nframes
  let raw :=
    if ftt ≤ capFrames - st.toq then readSeq st.buf st.toq ftt
    else
      readSeq st.buf st.toq (capFrames - st.toq) ++
        readSeq st.buf 0 (ftt - (capFrames - st.toq))
  let toq' :=
    if ftt ≤ capFrames - st.toq then st.toq + ftt
    else ftt - (capFrames - st.toq)
  { st := { st with
      toq := toq'
      occupancy := st.occupancy - ftt
      latestLeft := env.leftRange
      latestRight := env.rightRange
      timeOfLatestTransfer := env.now }
    raw := raw
    left := deinterleave_and_convert_stream raw IftType.frame_left_sample ++
      List.replicate (nframes - ftt) 0
    right := deinterleave_and_convert_stream raw IftType.frame_right_sample ++
      List.replicate (nframes - ftt) 0
    ret := 0 }

/-- Lines 398–422, `jack_delay(long *the_delay)`: the value stored in
`*the_delay`.  `delta = time_now - time_of_latest_transfer`;
`frames_processed_since_latest_latency_check = (delta * 44100) >> 32`
(arithmetic shift on `int64_t`, i.e. division by `2^32` rounding toward
negative infinity); `base_latency` is the `uint32_t` average of the left
range's `min` and `max` (their sum wraps at `2^32`), replaced by the
right average when zero.  The function itself returns 0. -/
def jack_delay (st : JackState) (time_now : Int) : Int :=
  let delta := time_now - st.timeOfLatestTransfer
  let audio_occupancy_now := st.occupancy
  let frames_processed := Int.fdiv (delta * 44100) (2 ^ 32)
  let base_latency : ℕ := ((st.latestLeft.min + st.latestLeft.max) % 2 ^ 32) / 2
  let base_latency' : ℕ :=
    if base_latency = 0 then ((st.latestRight.min + st.latestRight.max) % 2 ^ 32) / 2
    else base_latency
  (base_latency' : Int) + (audio_occupancy_now : Int) - frames_processed

/-- The average of a latency range as §4.3 of the spec words it. -/
def average (a b : ℕ) : ℕ := (a + b) / 2

/-- Modelled from the spec, §4.3 `estimate_delay_frames(now)`, for
comparison with `jack_delay`: `base_latency` is the average of the left
snapshot's `min` and `max`, falling back to the right average when zero;
`frames_since_snapshot` is the fixed-point elapsed time since the last
transfer multiplied by 44100 (the Q32.32 product truncated to whole
frames); the result is `base_latency + occupancy - frames_since`. -/
def estimate_delay_frames (st : JackState) (now : Int) : Int :=
  let base_latency : ℕ :=
    if average st.latestLeft.min st.latestLeft.max = 0 then
      average st.latestRight.min st.latestRight.max
    else average st.latestLeft.min st.latestLeft.max
  let elapsed := now - st.timeOfLatestTransfer
  let frames_since := Int.fdiv (elapsed * 44100) (2 ^ 32)
  (base_latency : Int) + (st.occupancy : Int) - frames_since

/-- Lines 424–431, `jack_flush`: reset both cursors to `audio_lmb` and
the occupancy to zero. -/
def jack_flush (st : JackState) : JackState :=
  { st with toq := 0, eoq := 0, occupancy := 0 }

/-- The responses of the jack library during one
`jack_client_open_if_needed` attempt: whether `jack_client_open`
returns a client, the negotiated `jack_get_sample_rate`, whether
`jack_set_latency_callback` returns 0, whether `jack_activate` returns
nonzero. -/
structure SinkEnv where
  client_opens : Bool
  sample_rate : ℕ
  latency_cb_ok : Bool
  activate_fails : Bool
deriving DecidableEq, Repr

/-- Observable outcome of `jack_client_open_if_needed`: the final
`client_is_open` (also the function's return value), whether
`jack_activate` was reached, and whether the wrong-sample-rate `inform`
of lines 259–261 fired. -/
structure OpenAttemptResult where
  client_is_open : ℕ
  activate_called : Bool
  informed_wrong_rate : Bool
deriving DecidableEq, Repr

/-- Lines 234–267, `jack_client_open_if_needed`: under the client mutex,
when `client_is_open == 0`, open a client; on success register the
ports, read the sample rate, and only when it equals 44100 install the
latency callback and call `jack_activate`, setting `client_is_open = 1`
only when activation succeeds; a different sample rate only `inform`s.
Returns `client_is_open`. -/
def jack_client_open_if_needed (client_is_open : ℕ) (env : SinkEnv) : OpenAttemptResult :=
  if client_is_open = 0 then
    if env.client_opens then
      if env.sample_rate = 44100 then
        if env.latency_cb_ok then
          if env.activate_fails then ⟨0, true, false⟩
          else ⟨1, true, false⟩
        else ⟨0, false, false⟩
      else ⟨0, false, true⟩
    else ⟨0, false, false⟩
  else ⟨client_is_open, false, false⟩

/-- Line 307: the default `jack.auto_client_open_interval`. -/
def default_auto_open_interval : Int := 1

/-- Lines 336–344 of `jack_init`: when the settings file supplies
`jack.auto_client_open_interval`, a value outside `[0, 300]` is only
logged (`debug(1, ...)`) and the default kept; otherwise the value is
adopted.  Returns the resulting interval and whether the invalid-value
log fired. -/
def jack_init_auto_open_interval (configured : Option Int) : Int × Bool :=
  match configured with
  | none => (default_auto_open_interval, false)
  | some value =>
    if value < 0 ∨ value > 300 then (default_auto_open_interval, true)
    else (value, false)

/-- Line 386: `jack_init` ends with `return 0`, its only return
statement (allocation failure calls `die` and does not return). -/
def jack_init_ret : Int := 0

/-- States reachable from the freshly initialised buffer by `play`
calls that respect the free-space contract of spec §4.1 (written bytes
at most `C - occupancy*4`, i.e. `occupancy + frames ≤ capFrames`) and
by arbitrary process-callback invocations. -/
inductive ReachableGuarded : JackState → Prop
  | init : ReachableGuarded initState
  | push (st : JackState) (frames : List Frame) :
      ReachableGuarded st → st.occupancy + frames.length ≤ capFrames →
      ReachableGuarded (play st frames).1
  | pull (st : JackState) (env : CbEnv) (n : ℕ) :
      ReachableGuarded st → ReachableGuarded (jack_stream_write_cb st env n).st

/-- A completely full buffer, as left by pushing `capFrames` frames into
the fresh buffer (write cursor at `audio_umb`, read cursor at
`audio_lmb`, every queued frame being `⟨7, 7⟩`). -/
def fullState : JackState :=
  { buf := fun _ => ⟨7, 7⟩
    toq := 0
    eoq := capFrames
    occupancy := capFrames
    latestLeft := ⟨0, 0⟩
    latestRight := ⟨0, 0⟩
    timeOfLatestTransfer := 0 }

/-- A state just after a transfer at fixed-point time 0 with 100 frames
queued and a left latency range of 2..2 frames. -/
def delayDemoState : JackState :=
  { buf := fun _ => ⟨0, 0⟩
    toq := 0
    eoq := 100
    occupancy := 100
    latestLeft := ⟨2, 2⟩
    latestRight := ⟨0, 0⟩
    timeOfLatestTransfer := 0 }

/-- A state holding 2 queued frames, for exercising underflow. -/
def smallState : JackState :=
  { buf := fun _ => ⟨5, -5⟩
    toq := 0
    eoq := 2
    occupancy := 2
    latestLeft := ⟨0, 0⟩
    latestRight := ⟨0, 0⟩
    timeOfLatestTransfer := 0 }

/-- An empty buffer whose cursors sit one frame short of the end, so the
next 2-frame push wraps. -/
def smallWrapState : JackState :=
  { buf := fun _ => ⟨0, 0⟩
    toq := capFrames - 1
    eoq := capFrames - 1
    occupancy := 0
    latestLeft := ⟨0, 0⟩
    latestRight := ⟨0, 0⟩
    timeOfLatestTransfer := 0 }

/-- A sample callback environment. -/
def someEnv : CbEnv := ⟨⟨1, 3⟩, ⟨2, 4⟩, 10⟩

/-! ## Helper lemmas about the ring primitives -/

theorem writeSeq_apply_lt (l : List Frame) (buf : ℕ → Frame) (pos i : ℕ) (h : i < pos) :
    writeSeq buf pos l i = buf i := by
  induction l generalizing buf pos with
  | nil => rfl
  | cons f rest ih =>
    rw [writeSeq, ih _ _ (Nat.lt_succ_of_lt h)]
    exact Function.update_noteq (Nat.ne_of_lt h) _ _

theorem writeSeq_apply_ge (l : List Frame) (buf : ℕ → Frame) (pos i : ℕ)
    (h : pos + l.length ≤ i) : writeSeq buf pos l i = buf i := by
  induction l generalizing buf pos with
  | nil => rfl
  | cons f rest ih =>
    simp only [List.length_cons] at h
    rw [writeSeq, ih _ _ (by omega)]
    exact Function.update_noteq (by omega) _ _

theorem readSeq_length (buf : ℕ → Frame) (pos n : ℕ) : (readSeq buf pos n).length = n := by
  induction n generalizing pos with
  | zero => rfl
  | succ n ih => simp [readSeq, ih]

theorem readSeq_congr (buf1 buf2 : ℕ → Frame) (pos n : ℕ)
    (h : ∀ i, i < n → buf1 (pos + i) = buf2 (pos + i)) :
    readSeq buf1 pos n = readSeq buf2 pos n := by
  induction n generalizing pos with
  | zero => rfl
  | succ n ih =>
    rw [readSeq, readSeq]
    have h0 := h 0 (Nat.succ_pos n)
    rw [Nat.add_zero] at h0
    rw [h0, ih (pos + 1) (fun i hi => ?_)]
    have hh := h (i + 1) (Nat.succ_lt_succ hi)
    rwa [show pos + (i + 1) = pos + 1 + i by omega] at hh

theorem readSeq_writeSeq (l : List Frame) (buf : ℕ → Frame) (pos : ℕ) :
    readSeq (writeSeq buf pos l) pos l.length = l := by
  induction l generalizing buf pos with
  | nil => rfl
  | cons f rest ih =>
    rw [List.length_cons, writeSeq, readSeq,
      writeSeq_apply_lt rest _ (pos + 1) pos (Nat.lt_succ_self pos),
      Function.update_same, ih]

theorem play_occupancy (st : JackState) (frames : List Frame) :
    (play st frames).1.occupancy = st.occupancy + frames.length := by
  unfold play
  split <;> rfl

theorem play_ret (st : JackState) (frames : List Frame) : (play st frames).2 = 0 := by
  unfold play
  split <;> rfl

theorem play_toq (st : JackState) (frames : List Frame) :
    (play st frames).1.toq = st.toq := by
  unfold play
  split <;> rfl

theorem play_split (st : JackState) (frames : List Frame)
    (h : ¬ frames.length ≤ capFrames - st.eoq) :
    (play st frames).1 = { st with
      buf := writeSeq (writeSeq st.buf st.eoq (frames.take (capFrames - st.eoq))) 0
        (frames.drop (capFrames - st.eoq))
      eoq := frames.length - (capFrames - st.eoq)
      occupancy := st.occupancy + frames.length } := by
  unfold play
  rw [if_neg h]

theorem cb_occupancy (st : JackState) (env : CbEnv) (n : ℕ) :
    (jack_stream_write_cb st env n).st.occupancy =
      st.occupancy - (if st.occupancy < n then st.occupancy else n) := rfl

theorem cb_occupancy_le (st : JackState) (env : CbEnv) (n : ℕ) :
    (jack_stream_write_cb st env n).st.occupancy ≤ st.occupancy := by
  rw [cb_occupancy]
  exact Nat.sub_le _ _

theorem cb_raw_split (st : JackState) (env : CbEnv) (n : ℕ)
    (h1 : ¬ st.occupancy < n) (h2 : ¬ n ≤ capFrames - st.toq) :
    (jack_stream_write_cb st env n).raw =
      readSeq st.buf st.toq (capFrames - st.toq) ++
        readSeq st.buf 0 (n - (capFrames - st.toq)) := by
  unfold jack_stream_write_cb
  dsimp only
  rw [if_neg h1, if_neg h2]

theorem cb_raw_length (st : JackState) (env : CbEnv) (n : ℕ) :
    (jack_stream_write_cb st env n).raw.length =
      if st.occupancy < n then st.occupancy else n := by
  unfold jack_stream_write_cb
  dsimp only
  by_cases h1 : st.occupancy < n
  · rw [if_pos h1]
    by_cases h2 : st.occupancy ≤ capFrames - st.toq
    · rw [if_pos h2, readSeq_length]
    · rw [if_neg h2, List.length_append, readSeq_length, readSeq_length]
      omega
  · rw [if_neg h1]
    by_cases h2 : n ≤ capFrames - st.toq
    · rw [if_pos h2, readSeq_length]
    · rw [if_neg h2, List.length_append, readSeq_length, readSeq_length]
      omega

/-! ## Claim theorems -/

/-- C5: for every signed 16-bit input sample, the conversion of
`deinterleave_and_convert_stream` divides non-negative samples by 32767
(`SHRT_MAX`) and negates negative samples and divides them by -32768
(`SHRT_MIN`); the output always lies in `[-1, 1]`, `convert 32767 = 1`,
`convert (-32768) = -1`, and `convert 0 = 0`. -/
theorem convert_range_and_endpoints (s : Int) (h1 : -32768 ≤ s) (h2 : s ≤ 32767) :
    (-1 ≤ convert s ∧ convert s ≤ 1) ∧
    (0 ≤ s → convert s = (s : ℚ) / 32767) ∧
    (s < 0 → convert s = (-(s : ℚ)) / (-32768)) ∧
    convert 32767 = 1 ∧ convert (-32768) = -1 ∧ convert 0 = 0 := by
  refine ⟨?_, fun hs => by rw [convert, if_pos hs],
    fun hs => by rw [convert, if_neg (not_le.mpr hs)],
    by norm_num [convert], by norm_num [convert], by norm_num [convert]⟩
  unfold convert
  by_cases hs : 0 ≤ s
  · rw [if_pos hs]
    have hq : (0 : ℚ) ≤ (s : ℚ) := by exact_mod_cast hs
    have hq2 : (s : ℚ) ≤ 32767 := by exact_mod_cast h2
    constructor
    · have : (0 : ℚ) ≤ (s : ℚ) / 32767 := by positivity
      linarith
    · rw [div_le_one (by norm_num)]
      exact hq2
  · rw [if_neg hs]
    push_neg at hs
    have hq : (s : ℚ) < 0 := by exact_mod_cast hs
    have hq1 : (-32768 : ℚ) ≤ (s : ℚ) := by exact_mod_cast h1
    have heq : (-(s : ℚ)) / (-32768) = (s : ℚ) / 32768 := by ring
    rw [heq]
    constructor
    · rw [le_div_iff₀ (by norm_num : (0 : ℚ) < 32768)]
      linarith
    · have : (s : ℚ) / 32768 < 0 := by
        apply div_neg_of_neg_of_pos hq
        norm_num
      linarith

/-- Witness for C5 at the concrete sample -5. -/
theorem convert_range_and_endpoints_witness :
    ((-32768 : Int) ≤ -5 ∧ (-5 : Int) ≤ 32767) ∧
    ((-1 ≤ convert (-5) ∧ convert (-5) ≤ 1) ∧
      (0 ≤ (-5 : Int) → convert (-5) = ((-5 : Int) : ℚ) / 32767) ∧
      ((-5 : Int) < 0 → convert (-5) = (-((-5 : Int) : ℚ)) / (-32768)) ∧
      convert 32767 = 1 ∧ convert (-32768) = -1 ∧ convert 0 = 0) :=
  ⟨⟨by norm_num, by norm_num⟩,
    convert_range_and_endpoints (-5) (by norm_num) (by norm_num)⟩

/-- C9: a configured `jack.auto_client_open_interval` outside `[0, 300]`
is rejected without failing initialisation: the default interval of 1
second is kept, the invalid value is only logged, and `jack_init` still
returns 0. -/
theorem invalid_interval_keeps_default (value : Int) (h : value < 0 ∨ value > 300) :
    (jack_init_auto_open_interval (some value)).1 = 1 ∧
    (jack_init_auto_open_interval (some value)).2 = true ∧
    jack_init_ret = 0 := by
  refine ⟨?_, ?_, rfl⟩ <;>
    simp [jack_init_auto_open_interval, if_pos h, default_auto_open_interval]

/-- Witness for C9 at the out-of-range interval 301. -/
theorem invalid_interval_keeps_default_witness :
    ((301 : Int) < 0 ∨ (301 : Int) > 300) ∧
    ((jack_init_auto_open_interval (some 301)).1 = 1 ∧
      (jack_init_auto_open_interval (some 301)).2 = true ∧
      jack_init_ret = 0) :=
  ⟨by norm_num, invalid_interval_keeps_default 301 (by norm_num)⟩

/-- C8: when the attempt in `jack_client_open_if_needed` obtains a
client whose negotiated sample rate differs from 44100, the session is
not activated, `client_is_open` stays 0 (state `Closed`), the mismatch
is reported via `inform`, and a later attempt with a healthy sink (the
poller's retry) still succeeds because the state was left `Closed`. -/
theorem wrong_rate_leaves_closed (cio : ℕ) (env retryEnv : SinkEnv)
    (h0 : cio = 0) (hopen : env.client_opens = true) (hrate : env.sample_rate ≠ 44100)
    (h2o : retryEnv.client_opens = true) (h2r : retryEnv.sample_rate = 44100)
    (h2l : retryEnv.latency_cb_ok = true) (h2a : retryEnv.activate_fails = false) :
    (jack_client_open_if_needed cio env).client_is_open = 0 ∧
    (jack_client_open_if_needed cio env).activate_called = false ∧
    (jack_client_open_if_needed cio env).informed_wrong_rate = true ∧
    (jack_client_open_if_needed
      (jack_client_open_if_needed cio env).client_is_open retryEnv).client_is_open = 1 := by
  subst h0
  have hfirst : jack_client_open_if_needed 0 env = ⟨0, false, true⟩ := by
    unfold jack_client_open_if_needed
    rw [if_pos rfl, if_pos hopen, if_neg hrate]
  rw [hfirst]
  refine ⟨rfl, rfl, rfl, ?_⟩
  unfold jack_client_open_if_needed
  rw [if_pos rfl, if_pos h2o, if_pos h2r, if_pos h2l, h2a]
  rfl

/-- Witness for C8: a sink running at 48000, then a healthy retry. -/
theorem wrong_rate_leaves_closed_witness :
    ((0 : ℕ) = 0 ∧ (⟨true, 48000, true, false⟩ : SinkEnv).client_opens = true ∧
      (⟨true, 48000, true, false⟩ : SinkEnv).sample_rate ≠ 44100 ∧
      (⟨true, 44100, true, false⟩ : SinkEnv).client_opens = true ∧
      (⟨true, 44100, true, false⟩ : SinkEnv).sample_rate = 44100 ∧
      (⟨true, 44100, true, false⟩ : SinkEnv).latency_cb_ok = true ∧
      (⟨true, 44100, true, false⟩ : SinkEnv).activate_fails = false) ∧
    ((jack_client_open_if_needed 0 ⟨true, 48000, true, false⟩).client_is_open = 0 ∧
      (jack_client_open_if_needed 0 ⟨true, 48000, true, false⟩).activate_called = false ∧
      (jack_client_open_if_needed 0 ⟨true, 48000, true, false⟩).informed_wrong_rate = true ∧
      (jack_client_open_if_needed
        (jack_client_open_if_needed 0 ⟨true, 48000, true, false⟩).client_is_open
        ⟨true, 44100, true, false⟩).client_is_open = 1) :=
  ⟨⟨rfl, rfl, by decide, rfl, rfl, rfl, rfl⟩,
    wrong_rate_leaves_closed 0 ⟨true, 48000, true, false⟩ ⟨true, 44100, true, false⟩
      rfl rfl (by decide) rfl rfl rfl rfl⟩

/-- C10: every invocation of the process callback, whatever the request
size and occupancy (including a zero-frame delivery from an empty
buffer), stores the sink's two current latency ranges into
`latest_left_latency_range`/`latest_right_latency_range` and sets
`time_of_latest_transfer` to the current fixed-point time. -/
theorem cb_refreshes_latency_and_timestamp (st : JackState) (env : CbEnv) (n : ℕ) :
    (jack_stream_write_cb st env n).st.latestLeft = env.leftRange ∧
    (jack_stream_write_cb st env n).st.latestRight = env.rightRange ∧
    (jack_stream_write_cb st env n).st.timeOfLatestTransfer = env.now :=
  ⟨rfl, rfl, rfl⟩

/-- C4: the delay reported by `jack_delay` coincides with the spec's
`estimate_delay_frames` formula — base latency (average of the left
range's min and max, falling back to the right average when zero) plus
the occupancy at call time minus the fixed-point elapsed time since the
latest transfer multiplied by 44100 — whenever the two 32-bit latency
sums do not wrap. -/
theorem jack_delay_eq_estimate (st : JackState) (now : Int)
    (hl : st.latestLeft.min + st.latestLeft.max < 2 ^ 32)
    (hr : st.latestRight.min + st.latestRight.max < 2 ^ 32) :
    jack_delay st now = estimate_delay_frames st now := by
  unfold jack_delay estimate_delay_frames average
  rw [Nat.mod_eq_of_lt hl, Nat.mod_eq_of_lt hr]

/-- Witness for C4 at a concrete state and time. -/
theorem jack_delay_eq_estimate_witness :
    (delayDemoState.latestLeft.min + delayDemoState.latestLeft.max < 2 ^ 32 ∧
      delayDemoState.latestRight.min + delayDemoState.latestRight.max < 2 ^ 32) ∧
    jack_delay delayDemoState 5 = estimate_delay_frames delayDemoState 5 :=
  ⟨⟨by norm_num [delayDemoState], by norm_num [delayDemoState]⟩,
    jack_delay_eq_estimate delayDemoState 5 (by norm_num [delayDemoState])
      (by norm_num [delayDemoState])⟩

/-- C7 counterexample: two `jack_delay` queries at strictly increasing
fixed-point times 1 and 2 after the transfer at time 0, with no push or
pull in between, report the same (positive, unclamped) delay — the
estimate is not strictly decreasing in the query time. -/
theorem delay_not_strictly_decreasing_eval :
    (1 : Int) < 2 ∧ 0 < jack_delay delayDemoState 1 ∧
    jack_delay delayDemoState 2 = jack_delay delayDemoState 1 := by
  refine ⟨by norm_num, ?_, ?_⟩ <;> decide

/-- C7 (amended): with no further push and no further pull after a
transfer, `jack_delay` is monotonically non-increasing in the query
time — it falls at the nominal 44100 frames-per-second slope in whole
truncated frames, so over small time increments consecutive reports can
be equal, and no clamping at zero is applied by `jack_delay` itself. -/
theorem jack_delay_antitone (st : JackState) (t1 t2 : Int) (h : t1 ≤ t2) :
    jack_delay st t2 ≤ jack_delay st t1 := by
  unfold jack_delay
  dsimp only
  apply sub_le_sub_left
  have h32 : (0 : Int) ≤ 2 ^ 32 := by norm_num
  rw [Int.fdiv_eq_ediv _ h32, Int.fdiv_eq_ediv _ h32]
  apply Int.ediv_le_ediv (by norm_num)
  have : t1 - st.timeOfLatestTransfer ≤ t2 - st.timeOfLatestTransfer := by omega
  exact mul_le_mul_of_nonneg_right this (by norm_num)

/-- Witness for C7's amended theorem at concrete times 5 ≤ 7. -/
theorem jack_delay_antitone_witness :
    (5 : Int) ≤ 7 ∧ jack_delay delayDemoState 7 ≤ jack_delay delayDemoState 5 :=
  ⟨by norm_num, jack_delay_antitone delayDemoState 5 7 (by norm_num)⟩

/-- C1: evaluation of `play` at a full buffer (occupancy `capFrames`,
zero free bytes).  Pushing one more frame does not fail — there is no
Overflow path, the function unconditionally returns 0 — and it corrupts
the queue: the occupancy rises above the capacity and the oldest queued
frame (at the read cursor) is overwritten by the new data. -/
theorem play_overflow_unguarded_eval :
    buffer_size - fullState.occupancy * 4 < 1 * 2 * 2 ∧
    (play fullState [⟨1, 1⟩]).2 = 0 ∧
    (play fullState [⟨1, 1⟩]).1.occupancy = capFrames + 1 ∧
    (play fullState [⟨1, 1⟩]).1.buf fullState.toq = ⟨1, 1⟩ ∧
    fullState.buf fullState.toq = ⟨7, 7⟩ := by
  refine ⟨by decide, play_ret _ _, ?_, ?_, rfl⟩
  · rw [play_occupancy]
    decide
  · rw [play_split _ _ (by decide)]
    decide

/-- C2 counterexample: the concrete operation sequence "push 100000
frames, push 100000 frames" starting from the freshly initialised
buffer (each push staying inside the ring's byte bounds) drives the
occupancy to 200000, above the capacity of 176400 frames. -/
theorem occupancy_exceeds_capacity_eval :
    (play (play initState (List.replicate 100000 ⟨0, 0⟩)).1
        (List.replicate 100000 ⟨0, 0⟩)).1.occupancy = 200000 ∧
    ¬ (play (play initState (List.replicate 100000 ⟨0, 0⟩)).1
        (List.replicate 100000 ⟨0, 0⟩)).1.occupancy ≤ capFrames := by
  have h : (play (play initState (List.replicate 100000 ⟨0, 0⟩)).1
      (List.replicate 100000 ⟨0, 0⟩)).1.occupancy = 200000 := by
    rw [play_occupancy, play_occupancy, List.length_replicate]
    decide
  refine ⟨h, ?_⟩
  rw [h]
  decide

/-- C2 (amended): for every sequence of `play`/`jack_stream_write_cb`
operations from the freshly initialised buffer in which each push
respects the free-space contract (pushed frames at most
`capFrames - occupancy` at the time of the push), the occupancy
satisfies `0 ≤ occupancy ≤ capFrames` at every observation point. -/
theorem capacity_invariant_of_guarded (st : JackState) (h : ReachableGuarded st) :
    0 ≤ st.occupancy ∧ st.occupancy ≤ capFrames := by
  refine ⟨Nat.zero_le _, ?_⟩
  induction h with
  | init => exact Nat.zero_le _
  | push st frames _ hfit ih =>
    rw [play_occupancy]
    exact hfit
  | pull st env n _ ih =>
    exact le_trans (cb_occupancy_le st env n) ih

/-- Witness for C2's amended theorem: the state after one in-bounds
push of a single frame is reachable and satisfies the bounds. -/
theorem capacity_invariant_of_guarded_witness :
    0 ≤ (play initState [⟨3, 3⟩]).1.occupancy ∧
    (play initState [⟨3, 3⟩]).1.occupancy ≤ capFrames :=
  capacity_invariant_of_guarded _
    (ReachableGuarded.push _ _ ReachableGuarded.init (by decide))

/-- C3: a process-callback invocation requesting `k` frames when the
buffer holds `m < k` frames reads exactly the `m` queued frames and
fills both port buffers with their conversion followed by `k - m`
frames of exact zero, so the sink receives a full period of `k` frames
in each port buffer, and the callback still returns 0 (underflow is not
an error). -/
theorem underflow_silence_fill (st : JackState) (env : CbEnv) (k : ℕ)
    (h : st.occupancy < k) :
    (jack_stream_write_cb st env k).raw.length = st.occupancy ∧
    (jack_stream_write_cb st env k).left =
      deinterleave_and_convert_stream (jack_stream_write_cb st env k).raw
        IftType.frame_left_sample ++ List.replicate (k - st.occupancy) 0 ∧
    (jack_stream_write_cb st env k).right =
      deinterleave_and_convert_stream (jack_stream_write_cb st env k).raw
        IftType.frame_right_sample ++ List.replicate (k - st.occupancy) 0 ∧
    (jack_stream_write_cb st env k).left.length = k ∧
    (jack_stream_write_cb st env k).right.length = k ∧
    (jack_stream_write_cb st env k).ret = 0 := by
  have hlen : (jack_stream_write_cb st env k).raw.length = st.occupancy := by
    rw [cb_raw_length, if_pos h]
  have hleft : (jack_stream_write_cb st env k).left =
      deinterleave_and_convert_stream (jack_stream_write_cb st env k).raw
        IftType.frame_left_sample ++ List.replicate (k - st.occupancy) 0 := by
    unfold jack_stream_write_cb
    dsimp only
    rw [if_pos h]
  have hright : (jack_stream_write_cb st env k).right =
      deinterleave_and_convert_stream (jack_stream_write_cb st env k).raw
        IftType.frame_right_sample ++ List.replicate (k - st.occupancy) 0 := by
    unfold jack_stream_write_cb
    dsimp only
    rw [if_pos h]
  refine ⟨hlen, hleft, hright, ?_, ?_, rfl⟩
  · rw [hleft, List.length_append, List.length_replicate]
    simp only [deinterleave_and_convert_stream, List.length_map]
    rw [hlen]
    omega
  · rw [hright, List.length_append, List.length_replicate]
    simp only [deinterleave_and_convert_stream, List.length_map]
    rw [hlen]
    omega

/-- Witness for C3: a 2-frame buffer asked for 5 frames. -/
theorem underflow_silence_fill_witness :
    smallState.occupancy < 5 ∧
    ((jack_stream_write_cb smallState someEnv 5).raw.length = smallState.occupancy ∧
      (jack_stream_write_cb smallState someEnv 5).left =
        deinterleave_and_convert_stream (jack_stream_write_cb smallState someEnv 5).raw
          IftType.frame_left_sample ++ List.replicate (5 - smallState.occupancy) 0 ∧
      (jack_stream_write_cb smallState someEnv 5).right =
        deinterleave_and_convert_stream (jack_stream_write_cb smallState someEnv 5).raw
          IftType.frame_right_sample ++ List.replicate (5 - smallState.occupancy) 0 ∧
      (jack_stream_write_cb smallState someEnv 5).left.length = 5 ∧
      (jack_stream_write_cb smallState someEnv 5).right.length = 5 ∧
      (jack_stream_write_cb smallState someEnv 5).ret = 0) :=
  ⟨by decide, underflow_silence_fill smallState someEnv 5 (by decide)⟩

/-- C6: from an empty buffer whose cursors sit `capFrames - eoq` frames
short of the end, pushing `N ≤ capFrames` frames whose byte span
crosses the end of the ring (so the copy is split into two memcpys) and
then pulling `N` frames through the process callback reads back exactly
the pushed 16-bit frames, in the original order. -/
theorem wrap_roundtrip (st : JackState) (env : CbEnv) (frames : List Frame)
    (hocc : st.occupancy = 0) (hcur : st.toq = st.eoq) (hle : st.eoq ≤ capFrames)
    (hcross : capFrames - st.eoq < frames.length) (hcap : frames.length ≤ capFrames) :
    (jack_stream_write_cb (play st frames).1 env frames.length).raw = frames := by
  have hns : ¬ frames.length ≤ capFrames - st.eoq := not_le.mpr hcross
  have h1 : ¬ (play st frames).1.occupancy < frames.length := by
    rw [play_occupancy]
    omega
  have h2 : ¬ frames.length ≤ capFrames - (play st frames).1.toq := by
    rw [play_toq, hcur]
    omega
  rw [cb_raw_split _ env frames.length h1 h2, play_split st frames hns]
  dsimp only
  rw [hcur]
  have htlen : (frames.take (capFrames - st.eoq)).length = capFrames - st.eoq := by
    rw [List.length_take]
    omega
  have hdlen : (frames.drop (capFrames - st.eoq)).length =
      frames.length - (capFrames - st.eoq) := by
    rw [List.length_drop]
  have hpart2 : readSeq
      (writeSeq (writeSeq st.buf st.eoq (frames.take (capFrames - st.eoq))) 0
        (frames.drop (capFrames - st.eoq))) 0
      (frames.length - (capFrames - st.eoq)) = frames.drop (capFrames - st.eoq) := by
    have hrw := readSeq_writeSeq (frames.drop (capFrames - st.eoq))
      (writeSeq st.buf st.eoq (frames.take (capFrames - st.eoq))) 0
    rwa [hdlen] at hrw
  have hpart1 : readSeq
      (writeSeq (writeSeq st.buf st.eoq (frames.take (capFrames - st.eoq))) 0
        (frames.drop (capFrames - st.eoq))) st.eoq (capFrames - st.eoq) =
      frames.take (capFrames - st.eoq) := by
    have hcongr := readSeq_congr
      (writeSeq (writeSeq st.buf st.eoq (frames.take (capFrames - st.eoq))) 0
        (frames.drop (capFrames - st.eoq)))
      (writeSeq st.buf st.eoq (frames.take (capFrames - st.eoq)))
      st.eoq (capFrames - st.eoq)
      (fun i hi => writeSeq_apply_ge _ _ _ _ (by rw [hdlen]; omega))
    have hrw := readSeq_writeSeq (frames.take (capFrames - st.eoq)) st.buf st.eoq
    rw [htlen] at hrw
    rw [hcongr, hrw]
  rw [hpart1, hpart2, List.take_append_drop]

/-- Witness for C6: a 2-frame push that wraps one frame past the end,
read back intact. -/
theorem wrap_roundtrip_witness :
    (smallWrapState.occupancy = 0 ∧ smallWrapState.toq = smallWrapState.eoq ∧
      smallWrapState.eoq ≤ capFrames ∧
      capFrames - smallWrapState.eoq < ([⟨1, 2⟩, ⟨3, 4⟩] : List Frame).length ∧
      ([⟨1, 2⟩, ⟨3, 4⟩] : List Frame).length ≤ capFrames) ∧
    (jack_stream_write_cb (play smallWrapState [⟨1, 2⟩, ⟨3, 4⟩]).1 someEnv
      ([⟨1, 2⟩, ⟨3, 4⟩] : List Frame).length).raw = [⟨1, 2⟩, ⟨3, 4⟩] :=
  ⟨⟨rfl, rfl, by decide, by decide, by decide⟩,
    wrap_roundtrip smallWrapState someEnv [⟨1, 2⟩, ⟨3, 4⟩]
      rfl rfl (by decide) (by decide) (by decide)⟩

end AudioJack
